import Mathlib

/-!
Verification of the portfolio ledger and valuation engine of the
Finance-Tracker repository (src/services/trading.py, src/data/portfolio.py,
src/scripts/migrate_csv_to_sqlite.py, src/ui/cash.py, src/portfolio.py).

Shallow embedding conventions:
* Python floats are modelled as rationals (ℚ); `round(x, 2)` is modelled by
  `round2` below (round to a whole number of cents; Python uses
  round-half-to-even on floats, the embedding uses Mathlib's `round` on the
  scaled value — the two agree except on exact half-cent ties, which no
  theorem below depends on).
* A pandas DataFrame of holdings is modelled as a `List Holding` in row
  order; `df.at[idx, col]` updates on the first index of a boolean mask are
  modelled by `updateFirst`.
* The market-data boundary (yfinance) is modelled by oracle functions
  `dayRange : String → Option (ℚ × ℚ)` (today's (high, low), `None` on
  download failure, matching `get_day_high_low` raising) and
  `quote : String → Option ℚ` (last close used by `fetch_prices`; an
  unresolved/NaN quote is `None` and degrades to price 0 exactly as
  `prices: dict = {t: 0.0 for t in tickers}` does in
  `save_portfolio_snapshot`).
* The SQLite tables are modelled by lists carried in `LedgerState`; the
  order of durable writes performed by a trade is recorded in the
  `writes` field of `TradeResult` (trade_log insert, portfolio
  delete-all-then-insert, cash upsert, history delete-date-then-insert,
  in the order the Python source executes them).
-/


namespace FinanceTracker

/-- Embedding of Python `str.upper()` (trading.py lines 49 and 119:
`ticker = ticker.upper()`); ticker symbols are ASCII, where `str.upper`
agrees with `Char.toUpper` on each character. -/
def strUpper (s : String) : String := ⟨s.data.map Char.toUpper⟩

/-- Embedding of Python `round(x, 2)` (portfolio.py lines 56, 57, 84, 87, 88):
round to a whole number of cents. -/
def round2 (x : ℚ) : ℚ := (round (x * 100) : ℤ) / 100

/-- One row of the `portfolio` table / in-memory holdings DataFrame
(src/portfolio.py `PORTFOLIO_COLUMNS`, data/db.py `portfolio` schema). -/
structure Holding where
  ticker : String
  shares : ℚ
  stop_loss : ℚ
  buy_price : ℚ
  cost_basis : ℚ

/-- One row of the `trade_log` table (db.py schema; trading.py builds the
dict in `manual_buy` lines 70-78 and `manual_sell` lines 151-161; keys that
Python leaves absent or `""` are `none`). -/
structure TradeLogEntry where
  date : String
  ticker : String
  shares_bought : Option ℚ
  buy_price : Option ℚ
  cost_basis : ℚ
  pnl : ℚ
  reason : String
  shares_sold : Option ℚ
  sell_price : Option ℚ

/-- One row of the `portfolio_history` table / legacy CSV
(portfolio.py lines 61-90); fields Python fills with `""` are `none`. -/
structure SnapshotRow where
  date : String
  ticker : String
  shares : Option ℚ
  cost_basis : Option ℚ
  stop_loss : Option ℚ
  current_price : Option ℚ
  total_value : ℚ
  pnl : ℚ
  action : String
  cash_balance : Option ℚ
  total_equity : Option ℚ

/-- The reason a trade-validation check failed; one constructor per
distinct user-facing failure message in `manual_buy` / `manual_sell`
(the spec's error taxonomy, §7). -/
inductive TradeError where
  | invalidInput
  | marketDataUnavailable
  | priceOutOfRange
  | insufficientFunds
  | unknownTicker
  | overSell
deriving DecidableEq, Repr

/-- A durable write issued against the SQLite store, in program order:
`append_trade_log`'s insert, then inside `save_portfolio_snapshot` the
portfolio delete+insert (line 131-132), the cash upsert (line 135) and the
history delete+insert (lines 138-139). -/
inductive DurableWrite where
  | tradeLogW
  | holdingsW
  | cashW
  | historyW
deriving DecidableEq, Repr

/-- The persisted tables touched by the trade engine. -/
structure LedgerState where
  portfolio : List Holding
  cash : ℚ
  tradeLog : List TradeLogEntry
  history : List SnapshotRow

/-- Result of `manual_buy` / `manual_sell`: Python returns
`(ok, msg, portfolio_df, cash)` and mutates the log/history tables as a
side effect; here the tables travel in `state` and the order of durable
writes performed is recorded in `writes` (empty on a validation failure:
every failing `return` in the source precedes the first write). -/
structure TradeResult where
  ok : Bool
  err : Option TradeError
  state : LedgerState
  writes : List DurableWrite

/-- A failing `return False, msg, portfolio_df, cash` in the source:
state unchanged, nothing written. -/
def failWith (e : TradeError) (st : LedgerState) : TradeResult :=
  { ok := false, err := some e, state := st, writes := [] }

/-- `portfolio_df.at[idx, ...] = ...` where `idx` is the first index whose
ticker matches: rewrite the first matching row, keep the rest. -/
def updateFirst : List Holding → String → (Holding → Holding) → List Holding
  | [], _, _ => []
  | h :: t, tk, f => if h.ticker == tk then f h :: t else h :: updateFirst t tk f

/-- Per-ticker snapshot row (portfolio.py lines 49-75): note the source
writes the per-share weighted-average `buy_price` into the "Cost Basis"
column (line 66 `"Cost Basis": buy_price`). -/
def holdingRow (quote : String → Option ℚ) (today : String) (h : Holding) :
    SnapshotRow :=
  let price := (quote h.ticker).getD 0
  { date := today
    ticker := h.ticker
    shares := some h.shares
    cost_basis := some h.buy_price
    stop_loss := some h.stop_loss
    current_price := some price
    total_value := round2 (price * h.shares)
    pnl := round2 ((price - h.buy_price) * h.shares)
    action := "HOLD"
    cash_balance := none
    total_equity := none }

/-- The snapshot DataFrame built by `save_portfolio_snapshot`
(portfolio.py lines 30-92): one row per holding plus one TOTAL row whose
totals accumulate the already-rounded per-row values. -/
def snapshotRows (quote : String → Option ℚ) (today : String)
    (portfolio : List Holding) (cash : ℚ) : List SnapshotRow :=
  let rows := portfolio.map (holdingRow quote today)
  let total_value := (rows.map (·.total_value)).sum
  let total_pnl := (rows.map (·.pnl)).sum
  rows ++ [{ date := today
             ticker := "TOTAL"
             shares := none
             cost_basis := none
             stop_loss := none
             current_price := none
             total_value := round2 total_value
             pnl := round2 total_pnl
             action := ""
             cash_balance := some (round2 cash)
             total_equity := some (round2 (total_value + cash)) }]

/-- The effect of `save_portfolio_snapshot` on the `portfolio_history`
table (portfolio.py lines 138-139): `DELETE FROM portfolio_history WHERE
date = TODAY` then append today's rows. -/
def applyHistory (today : String) (rows hist : List SnapshotRow) :
    List SnapshotRow :=
  hist.filter (fun r => r.date != today) ++ rows

/-- `save_portfolio_snapshot(portfolio_df, cash)` as a state update: the
portfolio table is replaced by `portfolio_df`, the cash singleton upserted,
and today's history rows replaced (portfolio.py lines 128-139). -/
def saveSnapshot (quote : String → Option ℚ) (today : String)
    (portfolio : List Holding) (cash : ℚ) (st : LedgerState) : LedgerState :=
  { portfolio := portfolio
    cash := cash
    tradeLog := st.tradeLog
    history := applyHistory today (snapshotRows quote today portfolio cash) st.history }

/-- `manual_buy` (trading.py lines 39-107). -/
def manual_buy (dayRange : String → Option (ℚ × ℚ))
    (quote : String → Option ℚ) (today : String)
    (ticker : String) (shares price stop_loss : ℚ)
    (st : LedgerState) : TradeResult :=
  let t := strUpper ticker
  if shares ≤ 0 ∨ price ≤ 0 then failWith .invalidInput st
  else
    match dayRange t with
    | none => failWith .marketDataUnavailable st
    | some (day_high, day_low) =>
      if ¬ (day_low ≤ price ∧ price ≤ day_high) then failWith .priceOutOfRange st
      else
        let cost := price * shares
        if cost > st.cash then failWith .insufficientFunds st
        else
          let entry : TradeLogEntry :=
            { date := today, ticker := t, shares_bought := some shares
              buy_price := some price, cost_basis := cost, pnl := 0
              reason := "MANUAL BUY - New position"
              shares_sold := none, sell_price := none }
          let portfolio2 :=
            match st.portfolio.find? (fun h => h.ticker == t) with
            | none => st.portfolio ++
                [{ ticker := t, shares := shares, stop_loss := stop_loss
                   buy_price := price, cost_basis := cost }]
            | some _ => updateFirst st.portfolio t (fun h =>
                { h with shares := h.shares + shares
                         cost_basis := h.cost_basis + cost
                         buy_price := (h.cost_basis + cost) / (h.shares + shares)
                         stop_loss := stop_loss })
          let cash2 := st.cash - cost
          { ok := true, err := none
            state := saveSnapshot quote today portfolio2 cash2
              { st with tradeLog := st.tradeLog ++ [entry] }
            writes := [.tradeLogW, .holdingsW, .cashW, .historyW] }

/-- `manual_sell` (trading.py lines 110-174).  The source checks
membership (`ticker not in portfolio_df[COL_TICKER].values`, line 124)
before the day-range call and later reads the first matching row
(`iloc[0]`, line 140); here the membership check and the row lookup are the
single `find?`, which is `none` exactly when membership fails. -/
def manual_sell (dayRange : String → Option (ℚ × ℚ))
    (quote : String → Option ℚ) (today : String)
    (ticker : String) (shares price : ℚ)
    (st : LedgerState) : TradeResult :=
  let t := strUpper ticker
  if shares ≤ 0 ∨ price ≤ 0 then failWith .invalidInput st
  else
    match st.portfolio.find? (fun h => h.ticker == t) with
    | none => failWith .unknownTicker st
    | some row =>
      match dayRange t with
      | none => failWith .marketDataUnavailable st
      | some (day_high, day_low) =>
        if ¬ (day_low ≤ price ∧ price ≤ day_high) then failWith .priceOutOfRange st
        else
          let total_shares := row.shares
          if shares > total_shares then failWith .overSell st
          else
            let buy_price := row.buy_price
            let cost_basis := buy_price * shares
            let pnl := price * shares - cost_basis
            let entry : TradeLogEntry :=
              { date := today, ticker := t, shares_bought := none
                buy_price := none, cost_basis := cost_basis, pnl := pnl
                reason := "MANUAL SELL - User"
                shares_sold := some shares, sell_price := some price }
            let portfolio2 :=
              if shares = total_shares then
                st.portfolio.filter (fun h => h.ticker != t)
              else
                updateFirst st.portfolio t (fun h =>
                  { h with shares := total_shares - shares
                           cost_basis := (total_shares - shares) * buy_price })
            let cash2 := st.cash + price * shares
            { ok := true, err := none
              state := saveSnapshot quote today portfolio2 cash2
                { st with tradeLog := st.tradeLog ++ [entry] }
              writes := [.tradeLogW, .holdingsW, .cashW, .historyW] }

/-- `submit_cash` inside `show_cash_section` (ui/cash.py lines 9-25):
reject a non-positive amount, otherwise add it to cash and persist a fresh
snapshot. -/
def submit_cash (quote : String → Option ℚ) (today : String)
    (amount : ℚ) (st : LedgerState) : LedgerState :=
  if amount ≤ 0 then st
  else saveSnapshot quote today st.portfolio (st.cash + amount) st

/-- The raw store contents read by `load_portfolio`: the `portfolio` table
and the optional singleton `cash` row. -/
structure StoreDB where
  portfolio : List Holding
  cashRow : Option ℚ

/-- `load_portfolio` (data/portfolio.py lines 9-24): returns
(holdings, cash, flag); the source returns `True` early when both tables
are empty, and otherwise returns `portfolio_df.empty` as the flag. -/
def load_portfolio (db : StoreDB) : List Holding × ℚ × Bool :=
  if db.portfolio.isEmpty ∧ db.cashRow.isNone then ([], 0, true)
  else (db.portfolio, db.cashRow.getD 0, db.portfolio.isEmpty)

/-- `non_total["Date"].max()` (migrate_csv_to_sqlite.py line 30): maximum
date of a nonempty row list.  `pd.to_datetime` on the ISO `YYYY-MM-DD`
strings the program writes orders exactly like the strings themselves, so
the maximum is taken in `String`'s linear order. -/
def maxDate : List SnapshotRow → String
  | [] => ""
  | r :: t => t.foldl (fun m x => max m x.date) r.date

/-- The holdings `migrate` derives from the legacy CSV rows
(migrate_csv_to_sqlite.py lines 26-44): drop TOTAL rows, keep the most
recent date's rows, rename "Cost Basis" to `buy_price` and recompute
`cost_basis = shares * buy_price` (line 41).  When there are no non-TOTAL
rows the portfolio table is left untouched (empty). -/
def migrate_holdings (rows : List SnapshotRow) : List Holding :=
  let non_total := rows.filter (fun r => r.ticker != "TOTAL")
  if non_total.isEmpty then []
  else
    let latest := maxDate non_total
    (non_total.filter (fun r => r.date == latest)).map (fun r =>
      { ticker := r.ticker
        shares := r.shares.getD 0
        stop_loss := r.stop_loss.getD 0
        buy_price := r.cost_basis.getD 0
        cost_basis := r.shares.getD 0 * r.cost_basis.getD 0 })

/-- `total_rows.sort_values("Date").iloc[-1]` (migrate_csv_to_sqlite.py
line 49): the TOTAL row with the greatest date, taking the later row on
equal dates. -/
def lastTotalRow (rows : List SnapshotRow) : Option SnapshotRow :=
  match rows.filter (fun r => r.ticker == "TOTAL") with
  | [] => none
  | r :: t => some (t.foldl (fun m x => if x.date < m.date then m else x) r)

/-- The cash balance `migrate` derives from the legacy CSV rows
(migrate_csv_to_sqlite.py lines 46-52); `none` when no TOTAL row exists
(cash table left untouched). -/
def migrate_cash (rows : List SnapshotRow) : Option ℚ :=
  (lastTotalRow rows).bind (·.cash_balance)



theorem charUpper_idem (c : Char) : c.toUpper.toUpper = c.toUpper := by
  show Char.toUpper c.toUpper = c.toUpper
  by_cases h : 97 ≤ c.toNat ∧ c.toNat ≤ 122
  · have h1 : c.toUpper = Char.ofNat (c.toNat - 32) := by
      unfold Char.toUpper
      simp [h.1, h.2]
    have h2 : (Char.ofNat (c.toNat - 32)).toNat = c.toNat - 32 := by
      obtain ⟨ha, hb⟩ := h
      interval_cases hn : c.toNat <;> decide
    rw [h1]
    unfold Char.toUpper
    rw [h2]
    have h3 : ¬ (97 ≤ c.toNat - 32) := by omega
    simp [h3]
  · have h1 : c.toUpper = c := by
      unfold Char.toUpper
      simp only [ge_iff_le]
      rw [if_neg h]
    rw [h1, h1]

theorem strUpper_idem (s : String) : strUpper (strUpper s) = strUpper s := by
  simp [strUpper, List.map_map, Function.comp_def, charUpper_idem]

lemma find?_updateFirst (p : List Holding) (t : String) (f : Holding → Holding)
    (h0 : Holding) (hf : p.find? (fun h => h.ticker == t) = some h0)
    (hft : (f h0).ticker = h0.ticker) :
    (updateFirst p t f).find? (fun h => h.ticker == t) = some (f h0) := by
  induction p with
  | nil => simp at hf
  | cons a p ih =>
    cases hb : (a.ticker == t) with
    | true =>
      have ha : h0 = a := by
        simp [List.find?, hb] at hf
        exact hf.symm
      subst ha
      have hft' : ((f h0).ticker == t) = true := by
        rw [hft]
        exact hb
      simp [updateFirst, hb, List.find?, hft']
    | false =>
      have hf' : p.find? (fun h => h.ticker == t) = some h0 := by
        simpa [List.find?, hb] using hf
      simp [updateFirst, hb, List.find?, ih hf']

lemma find?_append_singleton (l : List Holding) (t : String) (x : Holding)
    (hl : l.find? (fun h => h.ticker == t) = none) (hx : x.ticker = t) :
    (l ++ [x]).find? (fun h => h.ticker == t) = some x := by
  simp [List.find?_append, hl, List.find?, hx]



lemma manual_buy_success_eq (dayRange : String → Option (ℚ × ℚ))
    (quote : String → Option ℚ) (today ticker : String)
    (shares price stop_loss day_high day_low : ℚ) (st : LedgerState)
    (hs : 0 < shares) (hp : 0 < price)
    (hdr : dayRange (strUpper ticker) = some (day_high, day_low))
    (hlo : day_low ≤ price) (hhi : price ≤ day_high)
    (hcash : price * shares ≤ st.cash) :
    manual_buy dayRange quote today ticker shares price stop_loss st =
      (let t := strUpper ticker
       let cost := price * shares
       let portfolio2 :=
         match st.portfolio.find? (fun h => h.ticker == t) with
         | none => st.portfolio ++
             [{ ticker := t, shares := shares, stop_loss := stop_loss
                buy_price := price, cost_basis := cost }]
         | some _ => updateFirst st.portfolio t (fun h =>
             { h with shares := h.shares + shares
                      cost_basis := h.cost_basis + cost
                      buy_price := (h.cost_basis + cost) / (h.shares + shares)
                      stop_loss := stop_loss })
       let cash2 := st.cash - cost
       { ok := true, err := none
         state := saveSnapshot quote today portfolio2 cash2
           { st with tradeLog := st.tradeLog ++
               [{ date := today, ticker := t, shares_bought := some shares
                  buy_price := some price, cost_basis := cost, pnl := 0
                  reason := "MANUAL BUY - New position"
                  shares_sold := none, sell_price := none }] }
         writes := [.tradeLogW, .holdingsW, .cashW, .historyW] }) := by
  have c1 : ¬ (shares ≤ 0 ∨ price ≤ 0) := by
    push_neg
    exact ⟨hs, hp⟩
  have c2 : ¬ ¬ (day_low ≤ price ∧ price ≤ day_high) := not_not_intro ⟨hlo, hhi⟩
  have c3 : ¬ (price * shares > st.cash) := not_lt.mpr hcash
  simp only [manual_buy, hdr, if_neg c1, if_neg c2, if_neg c3]

/-- Claim C1: for every Buy with positive shares and price, an available day
range whose inclusive [low, high] contains the price, and cost within cash,
the call succeeds and cash drops by exactly shares*price; a new ticker
appends a Holding with the given shares, stop_loss, buy_price = price and
cost_basis = shares*price; an existing ticker merges (shares and cost basis
add, buy_price becomes the weighted average cost_basis/shares, stop_loss is
overwritten); the resulting holding satisfies
cost_basis = shares*buy_price within 1e-2 (here exactly). -/
theorem buy_spec (dayRange : String → Option (ℚ × ℚ))
    (quote : String → Option ℚ) (today ticker : String)
    (shares price stop_loss day_high day_low : ℚ) (st : LedgerState)
    (hwf : ∀ h ∈ st.portfolio, 0 < h.shares)
    (hs : 0 < shares) (hp : 0 < price)
    (hdr : dayRange (strUpper ticker) = some (day_high, day_low))
    (hlo : day_low ≤ price) (hhi : price ≤ day_high)
    (hcash : price * shares ≤ st.cash) :
    (manual_buy dayRange quote today ticker shares price stop_loss st).ok = true ∧
    (manual_buy dayRange quote today ticker shares price stop_loss st).state.cash
      = st.cash - shares * price ∧
    (st.portfolio.find? (fun h => h.ticker == strUpper ticker) = none →
      (manual_buy dayRange quote today ticker shares price stop_loss st).state.portfolio
        = st.portfolio ++
          [{ ticker := strUpper ticker, shares := shares, stop_loss := stop_loss
             buy_price := price, cost_basis := shares * price }]) ∧
    (∀ h0, st.portfolio.find? (fun h => h.ticker == strUpper ticker) = some h0 →
      (manual_buy dayRange quote today ticker shares price stop_loss st).state.portfolio.find?
          (fun h => h.ticker == strUpper ticker)
        = some { ticker := h0.ticker
                 shares := h0.shares + shares
                 stop_loss := stop_loss
                 buy_price := (h0.cost_basis + price * shares) / (h0.shares + shares)
                 cost_basis := h0.cost_basis + price * shares }) ∧
    (∀ h', (manual_buy dayRange quote today ticker shares price stop_loss st).state.portfolio.find?
          (fun h => h.ticker == strUpper ticker) = some h' →
      |h'.cost_basis - h'.shares * h'.buy_price| ≤ 1 / 100) := by
  rw [manual_buy_success_eq dayRange quote today ticker shares price stop_loss
      day_high day_low st hs hp hdr hlo hhi hcash]
  rcases hfind : st.portfolio.find? (fun h => h.ticker == strUpper ticker) with _ | h0 <;>
    simp only [hfind, saveSnapshot]
  · have hnew : (st.portfolio ++
        [{ ticker := strUpper ticker, shares := shares, stop_loss := stop_loss
           buy_price := price, cost_basis := price * shares : Holding }]).find?
          (fun h => h.ticker == strUpper ticker)
        = some { ticker := strUpper ticker, shares := shares, stop_loss := stop_loss
                 buy_price := price, cost_basis := price * shares } :=
      find?_append_singleton _ _ _ hfind rfl
    refine ⟨trivial, by ring, ?_, ?_, ?_⟩
    · intro _
      rw [mul_comm shares price]
    · intro h0 hc
      exact Option.noConfusion hc
    · intro h' hf'
      rw [hnew] at hf'
      injection hf' with hh
      subst hh
      show |price * shares - shares * price| ≤ 1 / 100
      rw [mul_comm shares price, sub_self, abs_zero]
      norm_num
  · have hmem : h0 ∈ st.portfolio := List.mem_of_find?_eq_some hfind
    have hpos : 0 < h0.shares := hwf h0 hmem
    have hsum : h0.shares + shares ≠ 0 := by positivity
    have hupd := find?_updateFirst st.portfolio (strUpper ticker)
      (fun h => { h with shares := h.shares + shares
                         cost_basis := h.cost_basis + price * shares
                         buy_price := (h.cost_basis + price * shares) / (h.shares + shares)
                         stop_loss := stop_loss }) h0 hfind rfl
    refine ⟨trivial, by ring, ?_, ?_, ?_⟩
    · intro hc
      exact Option.noConfusion hc
    · intro h1 hf1
      injection hf1 with hh
      subst hh
      exact hupd
    · intro h' hf'
      rw [hupd] at hf'
      injection hf' with hh
      subst hh
      show |h0.cost_basis + price * shares -
        (h0.shares + shares) * ((h0.cost_basis + price * shares) / (h0.shares + shares))| ≤ 1 / 100
      rw [mul_comm (h0.shares + shares), div_mul_cancel₀ _ hsum, sub_self, abs_zero]
      norm_num



theorem buy_spec_witness :
    (manual_buy (fun _ => some (6, 4)) (fun _ => none) "2026-01-01" "abc" 10 5 4
        ⟨[], 1000, [], []⟩).ok = true ∧
    (manual_buy (fun _ => some (6, 4)) (fun _ => none) "2026-01-01" "abc" 10 5 4
        ⟨[], 1000, [], []⟩).state.cash = 950 ∧
    (manual_buy (fun _ => some (6, 4)) (fun _ => none) "2026-01-01" "abc" 10 5 4
        ⟨[], 1000, [], []⟩).state.portfolio =
      [{ ticker := "ABC", shares := 10, stop_loss := 4, buy_price := 5
         cost_basis := 10 * 5 }] := by
  have h := buy_spec (fun _ => some (6, 4)) (fun _ => none) "2026-01-01" "abc"
    10 5 4 6 4 ⟨[], 1000, [], []⟩ (by simp) (by norm_num) (by norm_num) rfl
    (by norm_num) (by norm_num) (by norm_num)
  refine ⟨h.1, ?_, ?_⟩
  · rw [h.2.1]
    norm_num
  · have h3 := h.2.2.1 rfl
    rw [h3]
    norm_num [strUpper]
    decide



lemma manual_sell_success_eq (dayRange : String → Option (ℚ × ℚ))
    (quote : String → Option ℚ) (today ticker : String)
    (shares price day_high day_low : ℚ) (st : LedgerState) (row : Holding)
    (hfind : st.portfolio.find? (fun h => h.ticker == strUpper ticker) = some row)
    (hs : 0 < shares) (hp : 0 < price)
    (hdr : dayRange (strUpper ticker) = some (day_high, day_low))
    (hlo : day_low ≤ price) (hhi : price ≤ day_high)
    (hsh : shares ≤ row.shares) :
    manual_sell dayRange quote today ticker shares price st =
      (let t := strUpper ticker
       let portfolio2 :=
         if shares = row.shares then
           st.portfolio.filter (fun h => h.ticker != t)
         else
           updateFirst st.portfolio t (fun h =>
             { h with shares := row.shares - shares
                      cost_basis := (row.shares - shares) * row.buy_price })
       let cash2 := st.cash + price * shares
       { ok := true, err := none
         state := saveSnapshot quote today portfolio2 cash2
           { st with tradeLog := st.tradeLog ++
               [{ date := today, ticker := t, shares_bought := none
                  buy_price := none, cost_basis := row.buy_price * shares
                  pnl := price * shares - row.buy_price * shares
                  reason := "MANUAL SELL - User"
                  shares_sold := some shares, sell_price := some price }] }
         writes := [.tradeLogW, .holdingsW, .cashW, .historyW] }) := by
  have c1 : ¬ (shares ≤ 0 ∨ price ≤ 0) := by
    push_neg
    exact ⟨hs, hp⟩
  have c2 : ¬ ¬ (day_low ≤ price ∧ price ≤ day_high) := not_not_intro ⟨hlo, hhi⟩
  have c3 : ¬ (shares > row.shares) := not_lt.mpr hsh
  simp only [manual_sell, hfind, hdr, if_neg c1, if_neg c2, if_neg c3]

/-- Claim C2: for every Sell with positive shares and price, the ticker held,
price inside the inclusive day range and shares at most the held shares, the
call succeeds, cash rises by exactly price*shares, the logged entry records
pnl = price*shares - buy_price*shares at the pre-sale weighted-average
buy_price; selling all shares removes the Holding entirely, a partial sell
keeps buy_price unchanged, decrements shares and recomputes
cost_basis = remaining_shares * buy_price. -/
theorem sell_spec (dayRange : String → Option (ℚ × ℚ))
    (quote : String → Option ℚ) (today ticker : String)
    (shares price day_high day_low : ℚ) (st : LedgerState) (row : Holding)
    (hfind : st.portfolio.find? (fun h => h.ticker == strUpper ticker) = some row)
    (hs : 0 < shares) (hp : 0 < price)
    (hdr : dayRange (strUpper ticker) = some (day_high, day_low))
    (hlo : day_low ≤ price) (hhi : price ≤ day_high)
    (hsh : shares ≤ row.shares) :
    (manual_sell dayRange quote today ticker shares price st).ok = true ∧
    (manual_sell dayRange quote today ticker shares price st).state.cash
      = st.cash + price * shares ∧
    (manual_sell dayRange quote today ticker shares price st).state.tradeLog
      = st.tradeLog ++
        [{ date := today, ticker := strUpper ticker, shares_bought := none
           buy_price := none, cost_basis := row.buy_price * shares
           pnl := price * shares - row.buy_price * shares
           reason := "MANUAL SELL - User"
           shares_sold := some shares, sell_price := some price }] ∧
    (shares = row.shares →
      (manual_sell dayRange quote today ticker shares price st).state.portfolio
          = st.portfolio.filter (fun h => h.ticker != strUpper ticker) ∧
      (manual_sell dayRange quote today ticker shares price st).state.portfolio.find?
          (fun h => h.ticker == strUpper ticker) = none) ∧
    (shares < row.shares →
      (manual_sell dayRange quote today ticker shares price st).state.portfolio.find?
          (fun h => h.ticker == strUpper ticker)
        = some { ticker := row.ticker, shares := row.shares - shares
                 stop_loss := row.stop_loss, buy_price := row.buy_price
                 cost_basis := (row.shares - shares) * row.buy_price }) := by
  rw [manual_sell_success_eq dayRange quote today ticker shares price day_high
      day_low st row hfind hs hp hdr hlo hhi hsh]
  refine ⟨rfl, by simp [saveSnapshot], ?_, ?_, ?_⟩
  · simp [saveSnapshot]
  · intro heq
    constructor
    · simp [saveSnapshot, if_pos heq]
    · simp only [saveSnapshot, if_pos heq]
      rw [List.find?_eq_none]
      intro x hx
      have := (List.mem_filter.mp hx).2
      simpa using this
  · intro hlt
    have hne : ¬ (shares = row.shares) := ne_of_lt hlt
    simp only [saveSnapshot, if_neg hne]
    exact find?_updateFirst st.portfolio (strUpper ticker)
      (fun h => { h with shares := row.shares - shares
                         cost_basis := (row.shares - shares) * row.buy_price })
      row hfind rfl



lemma manual_buy_fail_or_ok (dayRange : String → Option (ℚ × ℚ))
    (quote : String → Option ℚ) (today ticker : String)
    (shares price stop_loss : ℚ) (st : LedgerState) :
    (∃ e, manual_buy dayRange quote today ticker shares price stop_loss st
        = failWith e st) ∨
    (manual_buy dayRange quote today ticker shares price stop_loss st).ok = true := by
  simp only [manual_buy]
  split
  · exact Or.inl ⟨_, rfl⟩
  · split
    · exact Or.inl ⟨_, rfl⟩
    · split
      · exact Or.inl ⟨_, rfl⟩
      · split
        · exact Or.inl ⟨_, rfl⟩
        · exact Or.inr rfl

lemma manual_sell_fail_or_ok (dayRange : String → Option (ℚ × ℚ))
    (quote : String → Option ℚ) (today ticker : String)
    (shares price : ℚ) (st : LedgerState) :
    (∃ e, manual_sell dayRange quote today ticker shares price st
        = failWith e st) ∨
    (manual_sell dayRange quote today ticker shares price st).ok = true := by
  simp only [manual_sell]
  split
  · exact Or.inl ⟨_, rfl⟩
  · split
    · exact Or.inl ⟨_, rfl⟩
    · split
      · exact Or.inl ⟨_, rfl⟩
      · split
        · exact Or.inl ⟨_, rfl⟩
        · split
          · exact Or.inl ⟨_, rfl⟩
          · exact Or.inr rfl

lemma manual_buy_insufficient (dayRange : String → Option (ℚ × ℚ))
    (quote : String → Option ℚ) (today ticker : String)
    (shares price stop_loss : ℚ) (st : LedgerState)
    (hover : price * shares > st.cash) :
    (manual_buy dayRange quote today ticker shares price stop_loss st).ok = false := by
  by_cases c1 : shares ≤ 0 ∨ price ≤ 0
  · simp only [manual_buy, if_pos c1]
    rfl
  · cases hdr : dayRange (strUpper ticker) with
    | none =>
      simp only [manual_buy, if_neg c1, hdr]
      rfl
    | some pr =>
      obtain ⟨dh, dl⟩ := pr
      by_cases c2 : dl ≤ price ∧ price ≤ dh
      · simp only [manual_buy, if_neg c1, hdr, if_neg (not_not_intro c2), if_pos hover]
        rfl
      · simp only [manual_buy, if_neg c1, hdr, if_pos c2]
        rfl

lemma manual_buy_invalid (dayRange : String → Option (ℚ × ℚ))
    (quote : String → Option ℚ) (today ticker : String)
    (shares price stop_loss : ℚ) (st : LedgerState)
    (hbad : shares ≤ 0 ∨ price ≤ 0) :
    (manual_buy dayRange quote today ticker shares price stop_loss st).ok = false := by
  simp only [manual_buy, if_pos hbad]
  rfl

lemma manual_sell_invalid (dayRange : String → Option (ℚ × ℚ))
    (quote : String → Option ℚ) (today ticker : String)
    (shares price : ℚ) (st : LedgerState)
    (hbad : shares ≤ 0 ∨ price ≤ 0) :
    (manual_sell dayRange quote today ticker shares price st).ok = false := by
  simp only [manual_sell, if_pos hbad]
  rfl

lemma manual_sell_unknown (dayRange : String → Option (ℚ × ℚ))
    (quote : String → Option ℚ) (today ticker : String)
    (shares price : ℚ) (st : LedgerState)
    (hmiss : st.portfolio.find? (fun h => h.ticker == strUpper ticker) = none) :
    (manual_sell dayRange quote today ticker shares price st).ok = false := by
  simp only [manual_sell, hmiss]
  split
  · rfl
  · rfl

/-- Claim C3: every Buy or Sell that fails a precondition check returns
failure with an error, and leaves holdings, cash, trade log and portfolio
history exactly as they were (the returned state is the input state) with no
durable write issued; moreover cost > cash, non-positive inputs, and an
unknown ticker each force such a failure. -/
theorem trade_failure_atomic (dayRange : String → Option (ℚ × ℚ))
    (quote : String → Option ℚ) (today ticker : String)
    (shares price stop_loss : ℚ) (st : LedgerState) :
    ((manual_buy dayRange quote today ticker shares price stop_loss st).ok = false →
      (manual_buy dayRange quote today ticker shares price stop_loss st).state = st ∧
      (manual_buy dayRange quote today ticker shares price stop_loss st).writes = [] ∧
      (manual_buy dayRange quote today ticker shares price stop_loss st).err.isSome) ∧
    ((manual_sell dayRange quote today ticker shares price st).ok = false →
      (manual_sell dayRange quote today ticker shares price st).state = st ∧
      (manual_sell dayRange quote today ticker shares price st).writes = [] ∧
      (manual_sell dayRange quote today ticker shares price st).err.isSome) ∧
    (price * shares > st.cash →
      (manual_buy dayRange quote today ticker shares price stop_loss st).ok = false) ∧
    (shares ≤ 0 ∨ price ≤ 0 →
      (manual_buy dayRange quote today ticker shares price stop_loss st).ok = false ∧
      (manual_sell dayRange quote today ticker shares price st).ok = false) ∧
    (st.portfolio.find? (fun h => h.ticker == strUpper ticker) = none →
      (manual_sell dayRange quote today ticker shares price st).ok = false) := by
  refine ⟨?_, ?_, manual_buy_insufficient _ _ _ _ _ _ _ _,
    fun hbad => ⟨manual_buy_invalid _ _ _ _ _ _ _ _ hbad,
      manual_sell_invalid _ _ _ _ _ _ _ hbad⟩,
    manual_sell_unknown _ _ _ _ _ _ _⟩
  · intro hok
    rcases manual_buy_fail_or_ok dayRange quote today ticker shares price stop_loss st with
      ⟨e, heq⟩ | htrue
    · rw [heq]
      exact ⟨rfl, rfl, rfl⟩
    · rw [htrue] at hok
      cases hok
  · intro hok
    rcases manual_sell_fail_or_ok dayRange quote today ticker shares price st with
      ⟨e, heq⟩ | htrue
    · rw [heq]
      exact ⟨rfl, rfl, rfl⟩
    · rw [htrue] at hok
      cases hok

theorem trade_failure_atomic_witness :
    (manual_buy (fun _ => some (6, 4)) (fun _ => none) "2026-01-01" "abc" 10 500 4
        ⟨[], 1000, [], []⟩).ok = false ∧
    (manual_buy (fun _ => some (6, 4)) (fun _ => none) "2026-01-01" "abc" 10 500 4
        ⟨[], 1000, [], []⟩).state = ⟨[], 1000, [], []⟩ ∧
    (manual_buy (fun _ => some (6, 4)) (fun _ => none) "2026-01-01" "abc" 10 500 4
        ⟨[], 1000, [], []⟩).writes = [] ∧
    (manual_sell (fun _ => some (6, 4)) (fun _ => none) "2026-01-01" "abc" 10 500
        ⟨[], 1000, [], []⟩).ok = false := by
  have h := trade_failure_atomic (fun _ => some (6, 4)) (fun _ => none) "2026-01-01"
    "abc" 10 500 4 ⟨[], 1000, [], []⟩
  have hbuy : (manual_buy (fun _ => some (6, 4)) (fun _ => none) "2026-01-01" "abc"
      10 500 4 ⟨[], 1000, [], []⟩).ok = false := h.2.2.1 (by norm_num)
  have hsell : (manual_sell (fun _ => some (6, 4)) (fun _ => none) "2026-01-01" "abc"
      10 500 ⟨[], 1000, [], []⟩).ok = false := h.2.2.2.2 rfl
  exact ⟨hbuy, (h.1 hbuy).1, (h.1 hbuy).2.1, hsell⟩



lemma manual_buy_ok_spec (dayRange : String → Option (ℚ × ℚ))
    (quote : String → Option ℚ) (today ticker : String)
    (shares price stop_loss : ℚ) (st : LedgerState)
    (hok : (manual_buy dayRange quote today ticker shares price stop_loss st).ok = true) :
    price * shares ≤ st.cash ∧
    (manual_buy dayRange quote today ticker shares price stop_loss st).state.cash
      = st.cash - price * shares ∧
    0 < shares ∧ 0 < price := by
  by_cases c1 : shares ≤ 0 ∨ price ≤ 0
  · simp [manual_buy_invalid dayRange quote today ticker shares price stop_loss st c1] at hok
  · have hpos : 0 < shares ∧ 0 < price := by
      push_neg at c1
      exact ⟨c1.1, c1.2⟩
    cases hdr : dayRange (strUpper ticker) with
    | none =>
      simp only [manual_buy, if_neg c1, hdr] at hok
      cases hok
    | some pr =>
      obtain ⟨dh, dl⟩ := pr
      by_cases c2 : dl ≤ price ∧ price ≤ dh
      · by_cases c3 : price * shares > st.cash
        · simp [manual_buy_insufficient dayRange quote today ticker shares price
            stop_loss st c3] at hok
        · refine ⟨not_lt.mp c3, ?_, hpos⟩
          simp only [manual_buy, if_neg c1, hdr, if_neg (not_not_intro c2), if_neg c3,
            saveSnapshot]
      · simp only [manual_buy, if_neg c1, hdr, if_pos c2] at hok
        cases hok

lemma manual_sell_ok_spec (dayRange : String → Option (ℚ × ℚ))
    (quote : String → Option ℚ) (today ticker : String)
    (shares price : ℚ) (st : LedgerState)
    (hok : (manual_sell dayRange quote today ticker shares price st).ok = true) :
    (manual_sell dayRange quote today ticker shares price st).state.cash
      = st.cash + price * shares ∧
    0 < shares ∧ 0 < price := by
  by_cases c1 : shares ≤ 0 ∨ price ≤ 0
  · simp [manual_sell_invalid dayRange quote today ticker shares price st c1] at hok
  · have hpos : 0 < shares ∧ 0 < price := by
      push_neg at c1
      exact ⟨c1.1, c1.2⟩
    cases hf : st.portfolio.find? (fun h => h.ticker == strUpper ticker) with
    | none =>
      simp [manual_sell_unknown dayRange quote today ticker shares price st hf] at hok
    | some row =>
      cases hdr : dayRange (strUpper ticker) with
      | none =>
        simp only [manual_sell, if_neg c1, hf, hdr] at hok
        cases hok
      | some pr =>
        obtain ⟨dh, dl⟩ := pr
        by_cases c2 : dl ≤ price ∧ price ≤ dh
        · by_cases c3 : shares > row.shares
          · simp only [manual_sell, if_neg c1, hf, hdr, if_neg (not_not_intro c2),
              if_pos c3] at hok
            cases hok
          · refine ⟨?_, hpos⟩
            simp only [manual_sell, if_neg c1, hf, hdr, if_neg (not_not_intro c2),
              if_neg c3, saveSnapshot]
        · simp only [manual_sell, if_neg c1, hf, hdr, if_pos c2] at hok
          cases hok

/-- Claim C7: starting from cash at least 0, every trade-engine operation
preserves cash at least 0: a Buy whose cost exceeds cash is rejected, a Buy
at exact equality succeeds and leaves cash 0, and Sell and Add-Cash never
decrease cash. -/
theorem cash_never_negative (dayRange : String → Option (ℚ × ℚ))
    (quote : String → Option ℚ) (today ticker : String)
    (shares price stop_loss amount day_high day_low : ℚ) (st : LedgerState)
    (h0 : 0 ≤ st.cash) :
    0 ≤ (manual_buy dayRange quote today ticker shares price stop_loss st).state.cash ∧
    0 ≤ (manual_sell dayRange quote today ticker shares price st).state.cash ∧
    st.cash ≤ (manual_sell dayRange quote today ticker shares price st).state.cash ∧
    0 ≤ (submit_cash quote today amount st).cash ∧
    st.cash ≤ (submit_cash quote today amount st).cash ∧
    (price * shares > st.cash →
      (manual_buy dayRange quote today ticker shares price stop_loss st).ok = false) ∧
    (0 < shares → 0 < price → dayRange (strUpper ticker) = some (day_high, day_low) →
      day_low ≤ price → price ≤ day_high → price * shares = st.cash →
      (manual_buy dayRange quote today ticker shares price stop_loss st).ok = true ∧
      (manual_buy dayRange quote today ticker shares price stop_loss st).state.cash = 0) := by
  have hsell : 0 ≤ (manual_sell dayRange quote today ticker shares price st).state.cash ∧
      st.cash ≤ (manual_sell dayRange quote today ticker shares price st).state.cash := by
    rcases manual_sell_fail_or_ok dayRange quote today ticker shares price st with
      ⟨e, heq⟩ | htrue
    · rw [heq]
      exact ⟨h0, le_refl _⟩
    · obtain ⟨hcash, hs, hp⟩ := manual_sell_ok_spec dayRange quote today ticker
        shares price st htrue
      rw [hcash]
      constructor
      · positivity
      · exact le_add_of_nonneg_right (mul_pos hp hs).le
  have hsub : 0 ≤ (submit_cash quote today amount st).cash ∧
      st.cash ≤ (submit_cash quote today amount st).cash := by
    by_cases ha : amount ≤ 0
    · simp only [submit_cash, if_pos ha]
      exact ⟨h0, le_refl _⟩
    · push_neg at ha
      simp only [submit_cash, if_neg (not_le.mpr ha), saveSnapshot]
      exact ⟨by positivity, le_add_of_nonneg_right ha.le⟩
  refine ⟨?_, hsell.1, hsell.2, hsub.1, hsub.2,
    manual_buy_insufficient dayRange quote today ticker shares price stop_loss st, ?_⟩
  · rcases manual_buy_fail_or_ok dayRange quote today ticker shares price stop_loss st with
      ⟨e, heq⟩ | htrue
    · rw [heq]
      exact h0
    · obtain ⟨hle, hcash, _, _⟩ := manual_buy_ok_spec dayRange quote today ticker
        shares price stop_loss st htrue
      rw [hcash]
      exact sub_nonneg.mpr hle
  · intro hs hp hdr hlo hhi heq
    rw [manual_buy_success_eq dayRange quote today ticker shares price stop_loss
      day_high day_low st hs hp hdr hlo hhi (le_of_eq heq)]
    refine ⟨rfl, ?_⟩
    show st.cash - price * shares = 0
    rw [heq, sub_self]

theorem cash_never_negative_witness :
    0 ≤ (manual_buy (fun _ => some (6, 4)) (fun _ => none) "2026-01-01" "abc" 10 5 4
        ⟨[], 50, [], []⟩).state.cash ∧
    (manual_buy (fun _ => some (6, 4)) (fun _ => none) "2026-01-01" "abc" 10 5 4
        ⟨[], 50, [], []⟩).ok = true ∧
    (manual_buy (fun _ => some (6, 4)) (fun _ => none) "2026-01-01" "abc" 10 5 4
        ⟨[], 50, [], []⟩).state.cash = 0 ∧
    (manual_buy (fun _ => some (6, 4)) (fun _ => none) "2026-01-01" "abc" 10 5 4
        ⟨[], 30, [], []⟩).ok = false ∧
    0 ≤ (submit_cash (fun _ => none) "2026-01-01" 25 ⟨[], 50, [], []⟩).cash := by
  have h1 := cash_never_negative (fun _ => some (6, 4)) (fun _ => none) "2026-01-01"
    "abc" 10 5 4 25 6 4 ⟨[], 50, [], []⟩ (by norm_num)
  have h2 := cash_never_negative (fun _ => some (6, 4)) (fun _ => none) "2026-01-01"
    "abc" 10 5 4 25 6 4 ⟨[], 30, [], []⟩ (by norm_num)
  have heqc := h1.2.2.2.2.2.2 (by norm_num) (by norm_num) rfl (by norm_num)
    (by norm_num) (by norm_num)
  exact ⟨h1.1, heqc.1, heqc.2, h2.2.2.2.2.2.1 (by norm_num), h1.2.2.2.1⟩



theorem sell_spec_witness :
    (manual_sell (fun _ => some (7, 6)) (fun _ => none) "2026-01-02" "abc" 20 (13/2)
        ⟨[{ ticker := "ABC", shares := 20, stop_loss := 4, buy_price := 6
            cost_basis := 120 }], 950, [], []⟩).ok = true ∧
    (manual_sell (fun _ => some (7, 6)) (fun _ => none) "2026-01-02" "abc" 20 (13/2)
        ⟨[{ ticker := "ABC", shares := 20, stop_loss := 4, buy_price := 6
            cost_basis := 120 }], 950, [], []⟩).state.cash = 1080 ∧
    (manual_sell (fun _ => some (7, 6)) (fun _ => none) "2026-01-02" "abc" 20 (13/2)
        ⟨[{ ticker := "ABC", shares := 20, stop_loss := 4, buy_price := 6
            cost_basis := 120 }], 950, [], []⟩).state.portfolio = [] ∧
    ((manual_sell (fun _ => some (7, 6)) (fun _ => none) "2026-01-02" "abc" 20 (13/2)
        ⟨[{ ticker := "ABC", shares := 20, stop_loss := 4, buy_price := 6
            cost_basis := 120 }], 950, [], []⟩).state.tradeLog.map (·.pnl)) = [10] := by
  have h := sell_spec (fun _ => some (7, 6)) (fun _ => none) "2026-01-02" "abc"
    20 (13/2) 7 6
    ⟨[{ ticker := "ABC", shares := 20, stop_loss := 4, buy_price := 6
        cost_basis := 120 }], 950, [], []⟩
    { ticker := "ABC", shares := 20, stop_loss := 4, buy_price := 6, cost_basis := 120 }
    rfl (by norm_num) (by norm_num) rfl (by norm_num) (by norm_num) (by norm_num)
  refine ⟨h.1, ?_, ?_, ?_⟩
  · rw [h.2.1]
    norm_num
  · rw [(h.2.2.2.1 rfl).1]
    rfl
  · rw [h.2.2.1]
    norm_num



lemma snapshotRows_date (quote : String → Option ℚ) (today : String)
    (p : List Holding) (cash : ℚ) :
    ∀ r ∈ snapshotRows quote today p cash, r.date = today := by
  intro r hr
  simp only [snapshotRows, List.mem_append, List.mem_map, List.mem_singleton] at hr
  rcases hr with ⟨h, _, rfl⟩ | rfl
  · rfl
  · rfl

lemma snapshotRows_filter_ne (quote : String → Option ℚ) (today : String)
    (p : List Holding) (cash : ℚ) :
    (snapshotRows quote today p cash).filter (fun r => r.date != today) = [] := by
  rw [List.filter_eq_nil_iff]
  intro r hr
  simp [snapshotRows_date quote today p cash r hr]

/-- Claim C5: re-running the valuation for the same date with unchanged
holdings, cash and prices leaves portfolio_history unchanged (the second
run's delete-then-insert reproduces the same rows), and the history keeps
at most one row per (date, ticker) pair, given unique holding tickers none
of which is "TOTAL" and a history that already satisfied the invariant. -/
theorem snapshot_idempotent_no_dup (quote : String → Option ℚ) (today : String)
    (p : List Holding) (cash : ℚ) (hist : List SnapshotRow)
    (hh : hist.Pairwise (fun a b => a.date ≠ b.date ∨ a.ticker ≠ b.ticker))
    (hnd : (p.map (·.ticker)).Nodup)
    (hT : ∀ h ∈ p, h.ticker ≠ "TOTAL") :
    applyHistory today (snapshotRows quote today p cash)
        (applyHistory today (snapshotRows quote today p cash) hist)
      = applyHistory today (snapshotRows quote today p cash) hist ∧
    (applyHistory today (snapshotRows quote today p cash) hist).Pairwise
      (fun a b => a.date ≠ b.date ∨ a.ticker ≠ b.ticker) := by
  constructor
  · show (applyHistory today (snapshotRows quote today p cash) hist).filter
        (fun r => r.date != today) ++ snapshotRows quote today p cash
      = applyHistory today (snapshotRows quote today p cash) hist
    rw [applyHistory, List.filter_append, List.filter_filter,
      snapshotRows_filter_ne quote today p cash, List.append_nil]
    have : (fun r => (r.date != today) && (r.date != today))
        = (fun (r : SnapshotRow) => r.date != today) := by
      funext r
      rw [Bool.and_self]
    rw [this]
  · rw [applyHistory, List.pairwise_append]
    refine ⟨hh.sublist (List.filter_sublist hist), ?_, ?_⟩
    · rw [snapshotRows, List.pairwise_append]
      refine ⟨?_, List.pairwise_singleton _ _, ?_⟩
      · rw [List.pairwise_map]
        have hnd' : p.Pairwise (fun a b => a.ticker ≠ b.ticker) := by
          rw [List.Nodup, List.pairwise_map] at hnd
          exact hnd
        exact hnd'.imp (fun h => Or.inr (by simpa [holdingRow] using h))
      · intro a ha b hb
        simp only [List.mem_map] at ha
        obtain ⟨h, hmem, rfl⟩ := ha
        simp only [List.mem_singleton] at hb
        subst hb
        exact Or.inr (by simpa [holdingRow] using hT h hmem)
    · intro a ha b hb
      have hadate : a.date ≠ today := by
        have := (List.mem_filter.mp ha).2
        simpa using this
      exact Or.inl (by rw [snapshotRows_date quote today p cash b hb]; exact hadate)



/-- Claim C4 (amended): a valuation run emits exactly one row per holding
plus one TOTAL row; each per-ticker row has action "HOLD", current_price
the quoted price (0 when unresolved), total_value = round2(price*shares),
pnl = round2((price - buy_price)*shares), and a cost_basis field equal to
the holding's per-share weighted-average buy_price (the source writes
buy_price into the "Cost Basis" column, not shares*buy_price); the TOTAL
row carries the rounded sums, round2(cash) and
total_equity = round2(total_value + cash). -/
theorem snapshot_valuation_spec (quote : String → Option ℚ) (today : String)
    (p : List Holding) (cash : ℚ) :
    (snapshotRows quote today p cash).length = p.length + 1 ∧
    (∀ i, ∀ hi : i < p.length, ∀ hi2 : i < (snapshotRows quote today p cash).length,
      (snapshotRows quote today p cash).get ⟨i, hi2⟩ =
        { date := today
          ticker := (p.get ⟨i, hi⟩).ticker
          shares := some (p.get ⟨i, hi⟩).shares
          cost_basis := some (p.get ⟨i, hi⟩).buy_price
          stop_loss := some (p.get ⟨i, hi⟩).stop_loss
          current_price := some ((quote (p.get ⟨i, hi⟩).ticker).getD 0)
          total_value := round2 (((quote (p.get ⟨i, hi⟩).ticker).getD 0)
            * (p.get ⟨i, hi⟩).shares)
          pnl := round2 ((((quote (p.get ⟨i, hi⟩).ticker).getD 0)
            - (p.get ⟨i, hi⟩).buy_price) * (p.get ⟨i, hi⟩).shares)
          action := "HOLD"
          cash_balance := none
          total_equity := none }) ∧
    (snapshotRows quote today p cash).getLast? = some
      { date := today, ticker := "TOTAL", shares := none, cost_basis := none
        stop_loss := none, current_price := none
        total_value := round2 ((p.map (fun h =>
          round2 (((quote h.ticker).getD 0) * h.shares))).sum)
        pnl := round2 ((p.map (fun h =>
          round2 ((((quote h.ticker).getD 0) - h.buy_price) * h.shares))).sum)
        action := ""
        cash_balance := some (round2 cash)
        total_equity := some (round2 ((p.map (fun h =>
          round2 (((quote h.ticker).getD 0) * h.shares))).sum + cash)) } := by
  refine ⟨by simp [snapshotRows], ?_, ?_⟩
  · intro i hi hi2
    have hlen : i < (p.map (holdingRow quote today)).length := by simpa using hi
    show ((p.map (holdingRow quote today)) ++ _).get ⟨i, _⟩ = _
    rw [List.get_append _ hlen]
    simp [List.get_map, holdingRow]
  · show ((p.map (holdingRow quote today)) ++ [_]).getLast? = _
    rw [List.getLast?_concat]
    simp [holdingRow, List.map_map, Function.comp_def]

theorem snapshot_valuation_witness :
    (snapshotRows (fun _ => some 6) "2026-01-01"
        [{ ticker := "ABC", shares := 10, stop_loss := 4, buy_price := 5
           cost_basis := 50 }] 100).length = 2 ∧
    (snapshotRows (fun _ => some 6) "2026-01-01"
        [{ ticker := "ABC", shares := 10, stop_loss := 4, buy_price := 5
           cost_basis := 50 }] 100).get ⟨0, by simp [snapshotRows]⟩ =
      { date := "2026-01-01", ticker := "ABC", shares := some 10
        cost_basis := some 5, stop_loss := some 4, current_price := some 6
        total_value := 60, pnl := 10, action := "HOLD"
        cash_balance := none, total_equity := none } ∧
    (snapshotRows (fun _ => some 6) "2026-01-01"
        [{ ticker := "ABC", shares := 10, stop_loss := 4, buy_price := 5
           cost_basis := 50 }] 100).getLast? = some
      { date := "2026-01-01", ticker := "TOTAL", shares := none
        cost_basis := none, stop_loss := none, current_price := none
        total_value := 60, pnl := 10, action := ""
        cash_balance := some 100, total_equity := some 160 } := by
  have h := snapshot_valuation_spec (fun _ => some 6) "2026-01-01"
    [{ ticker := "ABC", shares := 10, stop_loss := 4, buy_price := 5
       cost_basis := 50 }] 100
  have hv : round2 ((6 : ℚ) * 10) = 60 := by norm_num [round2, round_eq]
  have hpnl : round2 (((6 : ℚ) - 5) * 10) = 10 := by norm_num [round2, round_eq]
  refine ⟨h.1, ?_, ?_⟩
  · rw [h.2.1 0 (by norm_num) (by simp [snapshotRows])]
    simp only [List.get]
    norm_num [round2, round_eq]
  · rw [h.2.2]
    simp only [List.map, List.sum_cons, List.sum_nil]
    norm_num [round2, round_eq]

theorem snapshot_cost_basis_counterexample :
    ((snapshotRows (fun _ => some 6) "2026-01-01"
        [{ ticker := "ABC", shares := 10, stop_loss := 4, buy_price := 5
           cost_basis := 50 }] 100).head?.map (·.cost_basis)) = some (some 5) ∧
    (5 : ℚ) ≠ 10 * 5 := by
  constructor
  · simp [snapshotRows, holdingRow]
  · norm_num



lemma foldl_max_const (t : List SnapshotRow) (d : String)
    (h : ∀ x ∈ t, x.date = d) :
    t.foldl (fun m x => max m x.date) d = d := by
  induction t with
  | nil => rfl
  | cons x t ih =>
    rw [List.foldl_cons, h x (List.mem_cons_self x t), max_self]
    exact ih (fun y hy => h y (List.mem_cons_of_mem x hy))

lemma maxDate_const (l : List SnapshotRow) (d : String)
    (hd : ∀ r ∈ l, r.date = d) (hne : l ≠ []) : maxDate l = d := by
  cases l with
  | nil => exact absurd rfl hne
  | cons r t =>
    rw [maxDate, hd r (List.mem_cons_self r t)]
    exact foldl_max_const t d (fun y hy => hd y (List.mem_cons_of_mem r hy))

/-- Claim C6 (amended): serializing holdings and cash to the legacy CSV
snapshot format and reloading it via the migration derivation reconstructs
the same Holding list and the same cash, provided every holding satisfies
the at-rest invariant cost_basis = shares*buy_price, no ticker is "TOTAL",
and cash is a whole number of cents (the snapshot stores cash rounded to
2 decimals, so sub-cent cash does not round-trip). -/
theorem csv_round_trip (quote : String → Option ℚ) (today : String)
    (p : List Holding) (cash : ℚ)
    (hT : ∀ h ∈ p, h.ticker ≠ "TOTAL")
    (hcb : ∀ h ∈ p, h.cost_basis = h.shares * h.buy_price)
    (hc2 : round2 cash = cash) :
    migrate_holdings (snapshotRows quote today p cash) = p ∧
    migrate_cash (snapshotRows quote today p cash) = some cash := by
  have hfilter : (snapshotRows quote today p cash).filter (fun r => r.ticker != "TOTAL")
      = p.map (holdingRow quote today) := by
    show ((p.map (holdingRow quote today)) ++ [_]).filter
        (fun (r : SnapshotRow) => r.ticker != "TOTAL") = _
    rw [List.filter_append]
    have h1 : (p.map (holdingRow quote today)).filter (fun r => r.ticker != "TOTAL")
        = p.map (holdingRow quote today) := by
      rw [List.filter_eq_self]
      intro r hr
      simp only [List.mem_map] at hr
      obtain ⟨h, hm, rfl⟩ := hr
      simpa [holdingRow] using hT h hm
    rw [h1]
    simp
  have htot : (snapshotRows quote today p cash).filter (fun r => r.ticker == "TOTAL")
      = [{ date := today, ticker := "TOTAL", shares := none, cost_basis := none
           stop_loss := none, current_price := none
           total_value := round2 (((p.map (holdingRow quote today)).map
             (·.total_value)).sum)
           pnl := round2 (((p.map (holdingRow quote today)).map (·.pnl)).sum)
           action := ""
           cash_balance := some (round2 cash)
           total_equity := some (round2 ((((p.map (holdingRow quote today)).map
             (·.total_value)).sum) + cash)) }] := by
    show ((p.map (holdingRow quote today)) ++ [_]).filter
        (fun (r : SnapshotRow) => r.ticker == "TOTAL") = _
    rw [List.filter_append]
    have h1 : (p.map (holdingRow quote today)).filter (fun r => r.ticker == "TOTAL")
        = [] := by
      rw [List.filter_eq_nil_iff]
      intro r hr
      simp only [List.mem_map] at hr
      obtain ⟨h, hm, rfl⟩ := hr
      simpa [holdingRow] using hT h hm
    rw [h1]
    simp
  constructor
  · simp only [migrate_holdings]
    rw [hfilter]
    rcases hp : p with _ | ⟨h0, t⟩
    · simp
    · have hne : ((h0 :: t).map (holdingRow quote today)) ≠ [] := by simp
      have hdates : ∀ r ∈ (h0 :: t).map (holdingRow quote today), r.date = today := by
        intro r hr
        simp only [List.mem_map] at hr
        obtain ⟨h, _, rfl⟩ := hr
        rfl
      rw [if_neg (by simp), maxDate_const _ today hdates hne]
      have hkeep : ((h0 :: t).map (holdingRow quote today)).filter
            (fun r => r.date == today)
          = (h0 :: t).map (holdingRow quote today) := by
        rw [List.filter_eq_self]
        intro r hr
        simp [hdates r hr]
      rw [hkeep, List.map_map]
      have hcongr : ∀ h ∈ h0 :: t, (fun r : SnapshotRow =>
          ({ ticker := r.ticker, shares := r.shares.getD 0
             stop_loss := r.stop_loss.getD 0, buy_price := r.cost_basis.getD 0
             cost_basis := r.shares.getD 0 * r.cost_basis.getD 0 } : Holding))
            ((holdingRow quote today) h) = id h := by
        intro h hm
        show ({ ticker := h.ticker, shares := h.shares, stop_loss := h.stop_loss
                buy_price := h.buy_price
                cost_basis := h.shares * h.buy_price } : Holding) = h
        rw [hp] at hcb
        rw [← hcb h hm]
      simp only [Function.comp_def]
      rw [List.map_congr_left hcongr, List.map_id]
  · rw [migrate_cash, lastTotalRow, htot]
    simp only [List.foldl_nil, Option.some_bind]
    rw [hc2]

theorem csv_round_trip_witness :
    migrate_holdings (snapshotRows (fun _ => some 4) "2026-01-03"
        [{ ticker := "A", shares := 2, stop_loss := 1, buy_price := 3
           cost_basis := 6 }] 50)
      = [{ ticker := "A", shares := 2, stop_loss := 1, buy_price := 3
           cost_basis := 6 }] ∧
    migrate_cash (snapshotRows (fun _ => some 4) "2026-01-03"
        [{ ticker := "A", shares := 2, stop_loss := 1, buy_price := 3
           cost_basis := 6 }] 50) = some 50 := by
  have h := csv_round_trip (fun _ => some 4) "2026-01-03"
    [{ ticker := "A", shares := 2, stop_loss := 1, buy_price := 3, cost_basis := 6 }] 50
    (by intro h hm; simp at hm; rw [hm]; decide)
    (by intro h hm; simp at hm; rw [hm]; norm_num)
    (by norm_num [round2, round_eq])
  exact h

theorem csv_round_trip_counterexample :
    migrate_cash (snapshotRows (fun _ => none) "2026-01-01" [] (1/1000)) = some 0 ∧
    (0 : ℚ) ≠ 1/1000 ∧
    migrate_holdings (snapshotRows (fun _ => none) "2026-01-01"
        [{ ticker := "A", shares := 2, stop_loss := 0, buy_price := 3
           cost_basis := 7 }] 0)
      = [{ ticker := "A", shares := 2, stop_loss := 0, buy_price := 3
           cost_basis := 2 * 3 }] ∧
    (7 : ℚ) ≠ 2 * 3 := by
  refine ⟨?_, by norm_num, ?_, by norm_num⟩
  · simp [migrate_cash, lastTotalRow, snapshotRows, holdingRow]
    norm_num [round2, round_eq]
  · simp [migrate_holdings, snapshotRows, holdingRow, maxDate]



lemma manual_buy_ok_writes (dayRange : String → Option (ℚ × ℚ))
    (quote : String → Option ℚ) (today ticker : String)
    (shares price stop_loss : ℚ) (st : LedgerState) :
    (manual_buy dayRange quote today ticker shares price stop_loss st).ok = false ∨
    ((manual_buy dayRange quote today ticker shares price stop_loss st).ok = true ∧
     (manual_buy dayRange quote today ticker shares price stop_loss st).writes
       = [.tradeLogW, .holdingsW, .cashW, .historyW]) := by
  simp only [manual_buy]
  split
  · exact Or.inl rfl
  · split
    · exact Or.inl rfl
    · split
      · exact Or.inl rfl
      · split
        · exact Or.inl rfl
        · exact Or.inr ⟨rfl, rfl⟩

lemma manual_sell_ok_writes (dayRange : String → Option (ℚ × ℚ))
    (quote : String → Option ℚ) (today ticker : String)
    (shares price : ℚ) (st : LedgerState) :
    (manual_sell dayRange quote today ticker shares price st).ok = false ∨
    ((manual_sell dayRange quote today ticker shares price st).ok = true ∧
     (manual_sell dayRange quote today ticker shares price st).writes
       = [.tradeLogW, .holdingsW, .cashW, .historyW]) := by
  simp only [manual_sell]
  split
  · exact Or.inl rfl
  · split
    · exact Or.inl rfl
    · split
      · exact Or.inl rfl
      · split
        · exact Or.inl rfl
        · split
          · exact Or.inl rfl
          · exact Or.inr ⟨rfl, rfl⟩

/-- Claim C9 (amended): on every executed Buy or Sell the durable write
sequence is trade log first, then holdings, cash and history — the trade
log is the FIRST durable write, not the last, so a failure while persisting
holdings/cash leaves a trade log entry behind (partial failure is
detectable and replayable via the audit trail). -/
theorem trade_log_first_durable (dayRange : String → Option (ℚ × ℚ))
    (quote : String → Option ℚ) (today ticker : String)
    (shares price stop_loss : ℚ) (st : LedgerState) :
    ((manual_buy dayRange quote today ticker shares price stop_loss st).ok = true →
      (manual_buy dayRange quote today ticker shares price stop_loss st).writes
        = [.tradeLogW, .holdingsW, .cashW, .historyW]) ∧
    ((manual_sell dayRange quote today ticker shares price st).ok = true →
      (manual_sell dayRange quote today ticker shares price st).writes
        = [.tradeLogW, .holdingsW, .cashW, .historyW]) := by
  constructor
  · intro hok
    rcases manual_buy_ok_writes dayRange quote today ticker shares price stop_loss st with
      hfalse | ⟨_, hw⟩
    · rw [hok] at hfalse
      cases hfalse
    · exact hw
  · intro hok
    rcases manual_sell_ok_writes dayRange quote today ticker shares price st with
      hfalse | ⟨_, hw⟩
    · rw [hok] at hfalse
      cases hfalse
    · exact hw

theorem trade_log_first_durable_witness :
    (manual_buy (fun _ => some (6, 4)) (fun _ => none) "2026-01-01" "abc" 10 5 4
        ⟨[], 1000, [], []⟩).writes
      = [.tradeLogW, .holdingsW, .cashW, .historyW] ∧
    (manual_sell (fun _ => some (7, 6)) (fun _ => none) "2026-01-02" "abc" 20 (13/2)
        ⟨[{ ticker := "ABC", shares := 20, stop_loss := 4, buy_price := 6
            cost_basis := 120 }], 950, [], []⟩).writes
      = [.tradeLogW, .holdingsW, .cashW, .historyW] := by
  refine ⟨(trade_log_first_durable (fun _ => some (6, 4)) (fun _ => none) "2026-01-01"
      "abc" 10 5 4 ⟨[], 1000, [], []⟩).1 ?_,
    (trade_log_first_durable (fun _ => some (7, 6)) (fun _ => none) "2026-01-02"
      "abc" 20 (13/2) 0
      ⟨[{ ticker := "ABC", shares := 20, stop_loss := 4, buy_price := 6, cost_basis := 120 }],
        950, [], []⟩).2 ?_⟩
  · norm_num [manual_buy, strUpper, failWith]
  · norm_num [manual_sell, failWith, List.find?, show strUpper "abc" = "ABC" from rfl]

theorem trade_log_last_counterexample :
    (manual_buy (fun _ => some (6, 4)) (fun _ => none) "2026-01-01" "abc" 10 5 4
        ⟨[], 1000, [], []⟩).ok = true ∧
    (manual_buy (fun _ => some (6, 4)) (fun _ => none) "2026-01-01" "abc" 10 5 4
        ⟨[], 1000, [], []⟩).writes.head? = some DurableWrite.tradeLogW ∧
    (manual_buy (fun _ => some (6, 4)) (fun _ => none) "2026-01-01" "abc" 10 5 4
        ⟨[], 1000, [], []⟩).writes.getLast? = some DurableWrite.historyW ∧
    DurableWrite.historyW ≠ DurableWrite.tradeLogW := by
  refine ⟨?_, ?_, ?_, by decide⟩ <;>
    norm_num [manual_buy, strUpper, failWith]

/-- Claim C10: Buy and Sell normalize the ticker to uppercase before any
check or effect, so calling either with a ticker or with its uppercased
form produces identical results and post-states. -/
theorem ticker_uppercase_invariant (dayRange : String → Option (ℚ × ℚ))
    (quote : String → Option ℚ) (today ticker : String)
    (shares price stop_loss : ℚ) (st : LedgerState) :
    manual_buy dayRange quote today ticker shares price stop_loss st
      = manual_buy dayRange quote today (strUpper ticker) shares price stop_loss st ∧
    manual_sell dayRange quote today ticker shares price st
      = manual_sell dayRange quote today (strUpper ticker) shares price st := by
  constructor <;> simp only [manual_buy, manual_sell, strUpper_idem]

/-- Claim C8 (code bug): the store's load reports needs-initialization
exactly when the holdings table is empty, ignoring the cash record: at the
failing input (empty holdings, cash row 1080) it returns true, where the
spec requires false because a cash record exists. -/
theorem load_portfolio_needs_init_bug :
    (∀ db : StoreDB, (load_portfolio db).2.2 = db.portfolio.isEmpty) ∧
    load_portfolio ⟨[], some 1080⟩ = ([], 1080, true) := by
  constructor
  · intro db
    by_cases h : db.portfolio.isEmpty ∧ db.cashRow.isNone
    · simp [load_portfolio, h, h.1]
    · rw [load_portfolio, if_neg h]
  · rfl

theorem snapshot_idempotent_witness :
    applyHistory "2026-01-02"
        (snapshotRows (fun _ => none) "2026-01-02"
          [{ ticker := "ABC", shares := 10, stop_loss := 4, buy_price := 5
             cost_basis := 50 }] 50)
        (applyHistory "2026-01-02"
          (snapshotRows (fun _ => none) "2026-01-02"
            [{ ticker := "ABC", shares := 10, stop_loss := 4, buy_price := 5
               cost_basis := 50 }] 50) [])
      = applyHistory "2026-01-02"
          (snapshotRows (fun _ => none) "2026-01-02"
            [{ ticker := "ABC", shares := 10, stop_loss := 4, buy_price := 5
               cost_basis := 50 }] 50) [] ∧
    (applyHistory "2026-01-02"
        (snapshotRows (fun _ => none) "2026-01-02"
          [{ ticker := "ABC", shares := 10, stop_loss := 4, buy_price := 5
             cost_basis := 50 }] 50) []).Pairwise
      (fun a b => a.date ≠ b.date ∨ a.ticker ≠ b.ticker) := by
  exact snapshot_idempotent_no_dup (fun _ => none) "2026-01-02"
    [{ ticker := "ABC", shares := 10, stop_loss := 4, buy_price := 5, cost_basis := 50 }]
    50 [] List.Pairwise.nil (by simp)
    (by intro h hm; simp at hm; rw [hm]; decide)

end FinanceTracker
